import Mathlib

/-!
Shallow embedding of the ATS resume scoring engine of this repository
(`backend/services/ats_scorer.py` and `backend/services/resume_analyzer.py`),
together with proofs of the specification claims about it.

Modelling conventions:
* Python floats are modelled as exact rationals (`ℚ`).
* Python strings are Lean strings; `str.lower` is per-character lowering
  (`strLower`), `len` is `String.length`.
* Python sets are modelled as deduplicated lists (`List.dedup`); all claims
  touching them are order-independent.
* Whitespace (for `str.split`, `str.strip` and the regex class) is
  `Char.isWhitespace` (space, tab, carriage return, newline), which agrees
  with Python on the texts involved.
* The heavyweight optional resources used by the engine — the spaCy tagger
  behind `extract_keywords`/`extract_skills`, the sentence-embedding model and
  the scikit-learn TF-IDF vectorizer — are external libraries, not code of
  this repository.  They are modelled as an explicit oracle environment
  (`ATS.Env`): their outputs enter `analyze` as data, and the fallible library
  calls are `Except`-valued so that the repository's `try/except` fallback
  logic can be embedded faithfully.
* All arithmetic, set logic, regex counting and aggregation performed by the
  repository's own code is embedded concretely and executably.
-/

namespace ATS

/-- Python `str.lower()`: character-wise lowercasing (the engine's inputs and
keyword tables are ASCII, where per-character lowering is exact). -/
def strLower (s : String) : String := String.mk (s.data.map Char.toLower)

/-- Executable check that `n` is a contiguous sublist of `h`. -/
def listInfix (n : List Char) : List Char → Bool
  | [] => n.isEmpty
  | c :: cs => n.isPrefixOf (c :: cs) || listInfix n cs

/-- Python `needle in haystack` on strings: substring containment. -/
def substrOf (needle haystack : String) : Bool :=
  listInfix needle.toList haystack.toList

/-- Auxiliary for Python `str.split()`: `acc` holds the (reversed) characters
of the word currently being read. -/
def splitWsAux : List Char → List Char → List String
  | [], acc => if acc.isEmpty then [] else [String.mk acc.reverse]
  | c :: cs, acc =>
    if c.isWhitespace then
      if acc.isEmpty then splitWsAux cs []
      else String.mk acc.reverse :: splitWsAux cs []
    else splitWsAux cs (c :: acc)

/-- Python `str.split()` with no argument: split on whitespace runs, dropping
empty pieces. -/
def splitWs (s : String) : List String := splitWsAux s.data []

/-- Auxiliary for `re.sub(r'\s+', ' ', text)`: the flag records whether the
previous character was whitespace (so its run already emitted a space). -/
def squeezeWsAux : Bool → List Char → List Char
  | _, [] => []
  | prevWs, c :: cs =>
    if c.isWhitespace then
      (if prevWs then [] else [' ']) ++ squeezeWsAux true cs
    else c :: squeezeWsAux false cs

/-- `ATSScorer.normalize_text`: lowercase, collapse whitespace runs to a
single space, strip. -/
def normalize_text (text : String) : String :=
  (String.mk (squeezeWsAux false (strLower text).data)).trim

/-- Python `round` to the nearest integer, ties to even (banker's rounding). -/
def pyRoundInt (q : ℚ) : ℤ :=
  if q - ⌊q⌋ = 1 / 2 then (if 2 ∣ ⌊q⌋ then ⌊q⌋ else ⌊q⌋ + 1) else round q

/-- Python `round(x, 2)`. -/
def pyRound2 (q : ℚ) : ℚ := (pyRoundInt (q * 100) : ℚ) / 100

/-- `matched = list(resume_set.intersection(job_set))` of
`ATSScorer.find_keyword_matches` (the intersection of the two keyword sets,
as a list). -/
def fkmMatched (resume_set job_set : List String) : List String :=
  resume_set.filter (fun kw => decide (kw ∈ job_set))

/-- The `partial_matches` loop of `ATSScorer.find_keyword_matches`: each job
keyword not already exactly matched that stands in a substring relation (in
either direction) with some resume keyword, appended once. -/
def fkmFuzzy (resume_set job_set : List String) : List String :=
  job_set.filter (fun job_kw =>
    decide (job_kw ∉ fkmMatched resume_set job_set) &&
      resume_set.any (fun resume_kw =>
        substrOf job_kw resume_kw || substrOf resume_kw job_kw))

/-- `all_matched = matched + partial_matches` of
`ATSScorer.find_keyword_matches`. -/
def fkmAllMatched (resume_set job_set : List String) : List String :=
  fkmMatched resume_set job_set ++ fkmFuzzy resume_set job_set

/-- `ATSScorer.find_keyword_matches`: returns
`(all_matched, missing, match_rate)` over the deduplicated keyword sets. -/
def find_keyword_matches (resume_keywords job_keywords : List String) :
    List String × List String × ℚ :=
  let resume_set := resume_keywords.dedup
  let job_set := job_keywords.dedup
  let all_matched := fkmAllMatched resume_set job_set
  let missing := job_set.filter (fun kw => decide (kw ∉ all_matched))
  let match_rate : ℚ :=
    if job_set = [] then 0 else (all_matched.length : ℚ) / (job_set.length : ℚ)
  (all_matched, missing, match_rate)

/-- `ATSScorer.SECTION_KEYWORDS['skills']`. -/
def skillsSectionVariants : List String :=
  ["skills", "technical skills", "core competencies", "expertise",
   "proficiencies", "technologies", "tools", "technical proficiencies",
   "key skills"]

/-- `ATSScorer.SECTION_KEYWORDS['experience']`. -/
def experienceSectionVariants : List String :=
  ["experience", "work history", "employment", "professional experience",
   "work experience", "career history", "employment history",
   "professional background"]

/-- `ATSScorer.SECTION_KEYWORDS['education']`. -/
def educationSectionVariants : List String :=
  ["education", "academic", "degree", "university", "college",
   "qualification", "academic background", "certifications", "training"]

/-- `ATSScorer.SECTION_KEYWORDS['achievements']`. -/
def achievementsSectionVariants : List String :=
  ["achievements", "accomplishments", "awards", "honors", "recognition"]

/-- `ATSScorer.SECTION_KEYWORDS['projects']`. -/
def projectsSectionVariants : List String :=
  ["projects", "portfolio", "key projects", "notable work"]

/-- Result type of `ATSScorer.detect_sections` (a Python dict with these five
fixed keys). -/
structure SectionFlags where
  skills : Bool
  experience : Bool
  education : Bool
  achievements : Bool
  projects : Bool
  deriving Repr, DecidableEq

/-- One entry of `detect_sections`: `any(keyword in text_lower for keyword in
keywords)`. -/
def sectionPresent (text_lower : String) (variants : List String) : Bool :=
  variants.any (fun kw => substrOf kw text_lower)

/-- `ATSScorer.detect_sections`. -/
def detect_sections (resume_text : String) : SectionFlags :=
  let text_lower := strLower resume_text
  { skills := sectionPresent text_lower skillsSectionVariants
    experience := sectionPresent text_lower experienceSectionVariants
    education := sectionPresent text_lower educationSectionVariants
    achievements := sectionPresent text_lower achievementsSectionVariants
    projects := sectionPresent text_lower projectsSectionVariants }

/-- `sum(section_analysis.values())` for the five boolean flags. -/
def SectionFlags.trueCount (f : SectionFlags) : ℕ :=
  (if f.skills then 1 else 0) + (if f.experience then 1 else 0) +
    (if f.education then 1 else 0) + (if f.achievements then 1 else 0) +
    (if f.projects then 1 else 0)

/-- `ATSScorer.ACTION_VERBS['leadership']`. -/
def leadershipVerbs : List String :=
  ["led", "managed", "directed", "supervised", "coordinated", "headed",
   "spearheaded", "orchestrated"]

/-- `ATSScorer.ACTION_VERBS['achievement']`. -/
def achievementVerbs : List String :=
  ["achieved", "accomplished", "delivered", "exceeded", "surpassed",
   "completed", "attained"]

/-- `ATSScorer.ACTION_VERBS['improvement']`. -/
def improvementVerbs : List String :=
  ["improved", "enhanced", "optimized", "increased", "reduced", "streamlined",
   "accelerated", "maximized"]

/-- `ATSScorer.ACTION_VERBS['creation']`. -/
def creationVerbs : List String :=
  ["created", "developed", "designed", "built", "implemented", "established",
   "launched", "pioneered"]

/-- `ATSScorer.ACTION_VERBS['collaboration']`. -/
def collaborationVerbs : List String :=
  ["collaborated", "partnered", "coordinated", "facilitated", "contributed",
   "supported"]

/-- The regex word-character class `\w` used by the `\b` boundaries (the
verbs and texts involved are ASCII). -/
def isWordChar (c : Char) : Bool := c.isAlphanum || c = '_'

/-- Number of positions of `text` at which `verb` occurs delimited by word
boundaries, i.e. the match count of `re.findall(r'\b' + verb + r'\b', text)`
for an alphabetic `verb` (such boundary-delimited occurrences can never
overlap, so position counting and `findall` counting coincide).  `prev` is the
character immediately before the current scan position. -/
def countWBAux (verb : List Char) : Option Char → List Char → ℕ
  | _, [] => 0
  | prev, c :: cs =>
    (if verb.isPrefixOf (c :: cs)
        && (match prev with | none => true | some p => !isWordChar p)
        && (match (c :: cs).drop verb.length with
            | [] => true
            | d :: _ => !isWordChar d)
     then 1 else 0)
      + countWBAux verb (some c) cs

/-- `len(re.findall(r'\b' + verb + r'\b', text_lower))`. -/
def countWB (verb : String) (text : String) : ℕ :=
  countWBAux verb.toList none text.toList

/-- Total occurrence count of one `ACTION_VERBS` category in the lowered
resume text. -/
def categoryCount (verbs : List String) (text_lower : String) : ℕ :=
  (verbs.map (fun verb => countWB verb text_lower)).sum

/-- Match count of the patterns `\d+%` (targets `['%']`), `\d+[kKmMbB]\+?`
and `\d+x` with `re.IGNORECASE` (targets `['x','X']`): each such match is a
maximal digit run immediately followed by a target character, so the count is
the number of target characters immediately preceded by a digit. -/
def countDigitThen (targets : List Char) : Option Char → List Char → ℕ
  | _, [] => 0
  | prev, c :: cs =>
    (if (c ∈ targets) && (match prev with | some p => p.isDigit | none => false)
     then 1 else 0)
      + countDigitThen targets (some c) cs

/-- Match count of `\$\d+[kKmMbB]?`: each match starts at a dollar sign
immediately followed by a digit (the optional suffix never fails), so the
count is the number of such dollar signs. -/
def countDollarNum : List Char → ℕ
  | [] => 0
  | '$' :: c :: cs => (if c.isDigit then 1 else 0) + countDollarNum (c :: cs)
  | _ :: cs => countDollarNum cs

/-- Case-insensitive prefix test; the pattern `p` is given lowercase. -/
def isPrefixCI : List Char → List Char → Bool
  | [], _ => true
  | _ :: _, [] => false
  | p :: ps, c :: cs => (c.toLower == p) && isPrefixCI ps cs

/-- After the maximal digit run starting at `l`, skip the maximal whitespace
run and test whether one of the (lowercase) alternatives starts there. -/
def afterNumWsMatch (alts : List (List Char)) (l : List Char) : Bool :=
  alts.any (fun a =>
    isPrefixCI a ((l.dropWhile Char.isDigit).dropWhile Char.isWhitespace))

/-- Match count of `\d+\s*(years?|months?|weeks?)` and of
`\d+\s*(users?|customers?|clients?|people|employees|team members?)` with
`re.IGNORECASE`: each match consumes one maximal digit run, the following
whitespace and one of the alternative words, so the count is the number of
maximal digit runs whose following non-digit, non-whitespace continuation
starts with one of the alternative stems. -/
def countNumWord (alts : List (List Char)) : Option Char → List Char → ℕ
  | _, [] => 0
  | prev, c :: cs =>
    (if c.isDigit && (match prev with | some p => !p.isDigit | none => true)
        && afterNumWsMatch alts (c :: cs)
     then 1 else 0)
      + countNumWord alts (some c) cs

/-- Stems of the time-period alternatives of `METRIC_PATTERNS[4]` (the
optional plural `s` does not affect whether a match exists). -/
def timeAlts : List (List Char) :=
  ["year".toList, "month".toList, "week".toList]

/-- Stems of the scale alternatives of `METRIC_PATTERNS[5]`. -/
def scaleAlts : List (List Char) :=
  ["user".toList, "customer".toList, "client".toList, "people".toList,
   "employees".toList, "team member".toList]

/-- `metric_count` of `ATSScorer.analyze_experience_depth`: the summed
`re.findall` match counts of the six `METRIC_PATTERNS` over the raw resume
text (with `re.IGNORECASE`). -/
def metric_total (text : String) : ℕ :=
  countDigitThen ['%'] none text.toList
    + countDollarNum text.toList
    + countDigitThen ['k', 'K', 'm', 'M', 'b', 'B'] none text.toList
    + countDigitThen ['x', 'X'] none text.toList
    + countNumWord timeAlts none text.toList
    + countNumWord scaleAlts none text.toList

/-- Result type of `ATSScorer.analyze_experience_depth`. -/
structure ExperienceAnalysis where
  action_verb_count : ℕ
  metric_count : ℕ
  leadership_indicators : ℕ
  achievement_indicators : ℕ
  improvement_indicators : ℕ
  experience_strength_score : ℕ
  has_quantifiable_results : Bool
  deriving Repr, DecidableEq

/-- `ATSScorer.analyze_experience_depth`. -/
def analyze_experience_depth (text : String) : ExperienceAnalysis :=
  let text_lower := strLower text
  let lead := categoryCount leadershipVerbs text_lower
  let ach := categoryCount achievementVerbs text_lower
  let imp := categoryCount improvementVerbs text_lower
  let cre := categoryCount creationVerbs text_lower
  let col := categoryCount collaborationVerbs text_lower
  let total_action_verbs := lead + ach + imp + cre + col
  let metric_count := metric_total text
  let experience_score :=
    min 100 (total_action_verbs * 5 + metric_count * 10 +
      (if 0 < lead then 20 else 0) + (if 0 < ach then 15 else 0))
  { action_verb_count := total_action_verbs
    metric_count := metric_count
    leadership_indicators := lead
    achievement_indicators := ach
    improvement_indicators := imp
    experience_strength_score := min 100 experience_score
    has_quantifiable_results := 0 < metric_count }

/-- `ATSScorer._extract_keyword_contexts` with its default `window=5`: for
each word of `text.split()` that contains `keyword` as a substring, the
space-join of the surrounding slice `words[max(0,i-5):min(len,i+6)]` (`List.take`
already truncates at the end of the list, and `i - 5` is truncated
subtraction). -/
def extract_keyword_contexts (text keyword : String) : List String :=
  let words := splitWs text
  words.enum.filterMap (fun p =>
    if substrOf keyword p.2 then
      some (" ".intercalate ((words.drop (p.1 - 5)).take (p.1 + 6 - (p.1 - 5))))
    else none)

/-- `ATSScorer._calculate_context_overlap`: Jaccard similarity of the word
sets of the space-joined context windows. -/
def calculate_context_overlap (contexts1 contexts2 : List String) : ℚ :=
  if contexts1 = [] ∨ contexts2 = [] then 0
  else
    let words1 := (splitWs (" ".intercalate contexts1)).toFinset
    let words2 := (splitWs (" ".intercalate contexts2)).toFinset
    let inter := (words1 ∩ words2).card
    let uni := (words1 ∪ words2).card
    if 0 < uni then (inter : ℚ) / (uni : ℚ) else 0

/-- Result type of `ATSScorer.analyze_keyword_context`.  The Python
`context_scores` dict is modelled as an association list over the distinct
keywords among the first 20 (dict insertion deduplicates keys; the score of a
keyword depends only on the keyword, so overwriting never changes a value). -/
structure ContextAnalysis where
  context_scores : List (String × ℚ)
  average_context_match : ℚ
  well_contextualized_keywords : ℕ
  deriving Repr, DecidableEq

/-- `ATSScorer.analyze_keyword_context`. -/
def analyze_keyword_context (resume_text job_description : String)
    (keywords : List String) : ContextAnalysis :=
  let resume_lower := strLower resume_text
  let job_lower := strLower job_description
  let context_scores := ((keywords.take 20).dedup).map (fun keyword =>
    let resume_contexts := extract_keyword_contexts resume_lower keyword
    let job_contexts := extract_keyword_contexts job_lower keyword
    (keyword,
      if resume_contexts ≠ [] ∧ job_contexts ≠ [] then
        calculate_context_overlap resume_contexts job_contexts
      else if resume_contexts ≠ [] then (1 / 2 : ℚ)
      else 0))
  let avg : ℚ :=
    if context_scores = [] then 0
    else ((context_scores.map Prod.snd).sum) / (context_scores.length : ℚ)
  { context_scores := context_scores
    average_context_match := avg
    well_contextualized_keywords :=
      ((context_scores.map Prod.snd).filter (fun s => decide ((3 / 5 : ℚ) < s))).length }

/-- `ATSScorer._are_skills_related`'s `skill_families`. -/
def skill_families : List (List String) :=
  [["python", "django", "flask", "fastapi", "pandas", "numpy"],
   ["javascript", "typescript", "react", "angular", "vue", "node.js", "nodejs"],
   ["aws", "azure", "gcp", "cloud", "lambda", "ec2", "s3"],
   ["docker", "kubernetes", "k8s", "containers", "devops"],
   ["sql", "mysql", "postgresql", "database", "nosql", "mongodb"],
   ["machine learning", "deep learning", "ai", "tensorflow", "pytorch",
    "data science"]]

/-- `ATSScorer._are_skills_related`. -/
def are_skills_related (skill1 skill2 : String) : Bool :=
  skill_families.any (fun family =>
    decide (skill1 ∈ family) && decide (skill2 ∈ family))

/-- Result type of `ATSScorer.analyze_skills_depth` (the source's
`partial_skill_matches` list is named `fuzzy_skill_matches` here). -/
structure SkillsAnalysis where
  exact_skill_matches : List String
  fuzzy_skill_matches : List String
  missing_skills : List String
  exact_coverage : ℚ
  total_coverage : ℚ
  skill_match_score : ℤ
  deriving Repr, DecidableEq

/-- `exact_matches = resume_set.intersection(job_set)` of
`ATSScorer.analyze_skills_depth`, as a list. -/
def sdExact (resume_set job_set : List String) : List String :=
  resume_set.filter (fun s => decide (s ∈ job_set))

/-- The `partial_matches` set of `ATSScorer.analyze_skills_depth`: job skills
not exactly matched that are substring-related or family-related to some
resume skill. -/
def sdFuzzy (resume_set job_set : List String) : List String :=
  job_set.filter (fun job_skill =>
    decide (job_skill ∉ sdExact resume_set job_set) &&
      resume_set.any (fun resume_skill =>
        substrOf job_skill resume_skill || substrOf resume_skill job_skill ||
          are_skills_related job_skill resume_skill))

/-- `ATSScorer.analyze_skills_depth`. -/
def analyze_skills_depth (resume_skills job_skills : List String) :
    SkillsAnalysis :=
  let resume_set := (resume_skills.map strLower).dedup
  let job_set := (job_skills.map strLower).dedup
  let exact := sdExact resume_set job_set
  let fuzzy := sdFuzzy resume_set job_set
  let missing := job_set.filter (fun s =>
    decide (s ∉ exact) && decide (s ∉ fuzzy))
  let total_required := job_set.length
  let exact_coverage : ℚ :=
    if 0 < total_required then (exact.length : ℚ) / (total_required : ℚ) else 0
  let total_coverage : ℚ :=
    if 0 < total_required then
      ((exact.length : ℚ) + (fuzzy.length : ℚ)) / (total_required : ℚ)
    else 0
  { exact_skill_matches := exact
    fuzzy_skill_matches := fuzzy
    missing_skills := missing
    exact_coverage := pyRound2 (exact_coverage * 100)
    total_coverage := pyRound2 (total_coverage * 100)
    skill_match_score := ⌊total_coverage * 100⌋ }

/-- Oracle environment for the external libraries the engine calls.
`extractKeywords` and `extractSkills` abstract `ATSScorer.extract_keywords`
and `ATSScorer.extract_skills`, whose outputs depend on the optional spaCy
resource; `modelAvailable` is whether the sentence-embedding model loaded;
`semanticRaw` is the embedding encode-and-cosine computation (`Except.error`
models a raised exception); `tfidfRaw` is the scikit-learn TF-IDF fit and
cosine computation inside `calculate_tfidf_similarity`'s `try` block. -/
structure Env where
  extractKeywords : String → ℕ → List String
  extractSkills : String → List String
  modelAvailable : Bool
  semanticRaw : String → String → Except Unit ℚ
  tfidfRaw : String → String → Except Unit ℚ

/-- `ATSScorer.calculate_tfidf_similarity`: the whole body is wrapped in
`try: ... except Exception: return 0.0`. -/
def calculate_tfidf_similarity (env : Env) (resume_text job_description : String) : ℚ :=
  match env.tfidfRaw resume_text job_description with
  | Except.ok s => s
  | Except.error _ => 0

/-- `ATSScorer.calculate_semantic_similarity`: embedding cosine when the
model is available and the computation succeeds, otherwise the TF-IDF
fallback. -/
def calculate_semantic_similarity (env : Env) (resume_text job_description : String) : ℚ :=
  if env.modelAvailable then
    match env.semanticRaw resume_text job_description with
    | Except.ok s => s
    | Except.error _ => calculate_tfidf_similarity env resume_text job_description
  else
    calculate_tfidf_similarity env resume_text job_description

/-- The six normalized signals of `ATSScorer.analyze`'s `normalized_scores`
dict. -/
structure NormalizedScores where
  keyword_match : ℚ
  content_similarity : ℚ
  skills_coverage : ℚ
  experience_quality : ℚ
  context_alignment : ℚ
  section_structure : ℚ
  deriving Repr, DecidableEq

/-- The weighted base score of `ATSScorer.analyze`:
`sum(normalized_scores[c] * weights[c]) * 100` with the fixed weights. -/
def weighted_base (ns : NormalizedScores) : ℚ :=
  (ns.keyword_match * 0.25 + ns.content_similarity * 0.25 +
   ns.skills_coverage * 0.20 + ns.experience_quality * 0.15 +
   ns.context_alignment * 0.10 + ns.section_structure * 0.05) * 100

/-- The score-aggregation tail of `ATSScorer.analyze` (lines 709–747) as a
function of the five metric-independent signals and the raw counts/flags, with
the experience-quality signal recomputed from the counts exactly as
`analyze_experience_depth` does.  Used to state how the final score depends on
`metric_count` with everything else held fixed. -/
def score_given_metrics (kw cs sc ctx sect : ℚ) (verbs lead ach : ℕ)
    (resume_len : ℕ) (has_experience has_skills : Bool)
    (m : ℕ) : ℤ :=
  let strength : ℕ :=
    min 100 (verbs * 5 + m * 10 + (if 0 < lead then 20 else 0) +
      (if 0 < ach then 15 else 0))
  let base := weighted_base
    ⟨kw, cs, sc, (strength : ℚ) / 100, ctx, sect⟩
  let s1 := base + (if 5 ≤ m then 3 else if 3 ≤ m then 2 else 0)
  let s2 := s1 + (if 15 ≤ verbs then 2 else 0)
  let s3 := s2 - (if resume_len < 500 then 10 else 0)
  let s4 := s3 - (if has_experience then 0 else 5)
  let s5 := s4 - (if has_skills then 0 else 5)
  ⌊min 100 (max 0 s5)⌋

/-- The fields of `ATSScorer.analyze`'s result dict that the claims are
about (`keyword_match_rate` and `content_similarity_score` are the reported
percentages, rounded to two decimals as in the source). -/
structure AnalysisResult where
  ats_score : ℤ
  keyword_match_rate : ℚ
  matched_keywords : List String
  missing_keywords : List String
  content_similarity_score : ℚ
  normalized_scores : NormalizedScores
  section_analysis : SectionFlags
  experience_analysis : ExperienceAnalysis
  context_analysis : ContextAnalysis
  skills_analysis : SkillsAnalysis
  resume_length : ℕ

/-- `ATSScorer.analyze`. -/
def analyze (env : Env) (resume_text job_description : String) : AnalysisResult :=
  let resume_normalized := normalize_text resume_text
  let job_normalized := normalize_text job_description
  let resume_keywords := env.extractKeywords resume_normalized 100
  let job_keywords := env.extractKeywords job_normalized 100
  let km := find_keyword_matches resume_keywords job_keywords
  let matched_keywords := km.1
  let missing_keywords := km.2.1
  let keyword_match_rate := km.2.2
  let semantic_score := calculate_semantic_similarity env resume_normalized job_normalized
  let tfidf_score := calculate_tfidf_similarity env resume_normalized job_normalized
  let content_similarity := if 0 < semantic_score then semantic_score else tfidf_score
  let resume_skills := env.extractSkills resume_text
  let job_skills := env.extractSkills job_description
  let skills_analysis := analyze_skills_depth resume_skills job_skills
  let experience_analysis := analyze_experience_depth resume_text
  let context_analysis := analyze_keyword_context resume_text job_description job_keywords
  let section_analysis := detect_sections resume_text
  let section_completeness : ℚ := (section_analysis.trueCount : ℚ) / 5
  let normalized_scores : NormalizedScores :=
    { keyword_match := keyword_match_rate
      content_similarity := content_similarity
      skills_coverage := skills_analysis.total_coverage / 100
      experience_quality := (experience_analysis.experience_strength_score : ℚ) / 100
      context_alignment := context_analysis.average_context_match
      section_structure := section_completeness }
  let score0 := weighted_base normalized_scores
  let score1 := score0 +
    (if 5 ≤ experience_analysis.metric_count then 3
     else if 3 ≤ experience_analysis.metric_count then 2 else 0)
  let score2 := score1 +
    (if 15 ≤ experience_analysis.action_verb_count then 2 else 0)
  let score3 := score2 - (if resume_text.length < 500 then 10 else 0)
  let score4 := score3 - (if section_analysis.experience then 0 else 5)
    - (if section_analysis.skills then 0 else 5)
  let ats_score : ℤ := ⌊min 100 (max 0 score4)⌋
  { ats_score := ats_score
    keyword_match_rate := pyRound2 (keyword_match_rate * 100)
    matched_keywords := matched_keywords.take 25
    missing_keywords := missing_keywords.take 20
    content_similarity_score := pyRound2 (content_similarity * 100)
    normalized_scores := normalized_scores
    section_analysis := section_analysis
    experience_analysis := experience_analysis
    context_analysis := context_analysis
    skills_analysis := skills_analysis
    resume_length := resume_text.length }

/-- `ResumeAnalyzer.analyze_resume`, parameterized over the engine call
`self.ats_scorer.analyze` so that its input validation can be stated
independently of the engine (a raised `ValueError` is `Except.error`). -/
def analyze_resume (engine : String → String → AnalysisResult)
    (resume_text job_description : String) : Except String AnalysisResult :=
  if resume_text = "" ∨ resume_text.trim.length < 50 then
    Except.error "Resume text is too short or empty"
  else if job_description = "" ∨ job_description.trim.length < 20 then
    Except.error "Job description is too short or empty"
  else
    Except.ok (engine resume_text job_description)

/-! ### Supporting lemmas -/

/-- A duplicate-free list contained in another list is no longer than it. -/
theorem length_le_of_nodup_subset {α : Type} [DecidableEq α] {l L : List α}
    (hn : l.Nodup) (hsub : l ⊆ L) : l.length ≤ L.length :=
  (hn.subperm hsub).length_le

theorem mem_fkmMatched {rs js : List String} {x : String} :
    x ∈ fkmMatched rs js ↔ x ∈ rs ∧ x ∈ js := by
  simp [fkmMatched]

theorem mem_fkmFuzzy {rs js : List String} {x : String} :
    x ∈ fkmFuzzy rs js ↔
      x ∈ js ∧ x ∉ fkmMatched rs js ∧
        ∃ r ∈ rs, substrOf x r = true ∨ substrOf r x = true := by
  simp [fkmFuzzy, and_assoc]

theorem fkmMatched_nodup {rs js : List String} (hr : rs.Nodup) :
    (fkmMatched rs js).Nodup := hr.filter _

theorem fkmFuzzy_nodup {rs js : List String} (hj : js.Nodup) :
    (fkmFuzzy rs js).Nodup := hj.filter _

theorem fkmAllMatched_nodup {rs js : List String} (hr : rs.Nodup)
    (hj : js.Nodup) : (fkmAllMatched rs js).Nodup := by
  rw [fkmAllMatched, List.nodup_append]
  refine ⟨fkmMatched_nodup hr, fkmFuzzy_nodup hj, ?_⟩
  intro x hx hx'
  exact (mem_fkmFuzzy.1 hx').2.1 hx

theorem fkmAllMatched_subset {rs js : List String} :
    fkmAllMatched rs js ⊆ js := by
  intro x hx
  rcases List.mem_append.1 hx with h | h
  · exact (mem_fkmMatched.1 h).2
  · exact (mem_fkmFuzzy.1 h).1

theorem fkmAllMatched_length_le {rs js : List String} (hr : rs.Nodup)
    (hj : js.Nodup) : (fkmAllMatched rs js).length ≤ js.length :=
  length_le_of_nodup_subset (fkmAllMatched_nodup hr hj) fkmAllMatched_subset

/-- When every job keyword is also a resume keyword, the matched list covers
the whole job keyword set. -/
theorem fkmAllMatched_length_eq_of_superset {rs js : List String}
    (hr : rs.Nodup) (hj : js.Nodup) (hsup : js ⊆ rs) :
    (fkmAllMatched rs js).length = js.length := by
  refine le_antisymm (fkmAllMatched_length_le hr hj) ?_
  refine length_le_of_nodup_subset hj ?_
  intro x hx
  exact List.mem_append.2 (Or.inl (mem_fkmMatched.2 ⟨hsup hx, hx⟩))

theorem sdExact_nodup {rs js : List String} (hr : rs.Nodup) :
    (sdExact rs js).Nodup := hr.filter _

theorem sdExact_subset {rs js : List String} : sdExact rs js ⊆ js := by
  intro x hx
  have := (List.mem_filter.1 hx).2
  simpa using this

theorem sdFuzzy_nodup {rs js : List String} (hj : js.Nodup) :
    (sdFuzzy rs js).Nodup := hj.filter _

theorem sdFuzzy_subset {rs js : List String} : sdFuzzy rs js ⊆ js :=
  fun _ hx => (List.mem_filter.1 hx).1

theorem sdFuzzy_not_mem_exact {rs js : List String} {x : String}
    (hx : x ∈ sdFuzzy rs js) : x ∉ sdExact rs js := by
  have := (List.mem_filter.1 hx).2
  simp only [Bool.and_eq_true, decide_eq_true_eq] at this
  exact this.1

theorem sdExact_fuzzy_length_le {rs js : List String} (hr : rs.Nodup)
    (hj : js.Nodup) :
    (sdExact rs js).length + (sdFuzzy rs js).length ≤ js.length := by
  have hn : (sdExact rs js ++ sdFuzzy rs js).Nodup := by
    rw [List.nodup_append]
    exact ⟨sdExact_nodup hr, sdFuzzy_nodup hj,
      fun x hx hx' => sdFuzzy_not_mem_exact hx' hx⟩
  have hsub : (sdExact rs js ++ sdFuzzy rs js) ⊆ js := by
    intro x hx
    rcases List.mem_append.1 hx with h | h
    · exact sdExact_subset h
    · exact sdFuzzy_subset h
  simpa using length_le_of_nodup_subset hn hsub

/-- The nearest-integer rounding used by Python never rounds below the floor. -/
theorem floor_le_pyRoundInt (q : ℚ) : ⌊q⌋ ≤ pyRoundInt q := by
  unfold pyRoundInt
  split
  · split
    · exact le_refl _
    · exact le_of_lt (lt_add_one _)
  · rw [round_eq]
    exact Int.floor_le_floor (by linarith)

/-- The nearest-integer rounding used by Python never rounds above the
ceiling. -/
theorem pyRoundInt_le_ceil (q : ℚ) : pyRoundInt q ≤ ⌈q⌉ := by
  unfold pyRoundInt
  split
  · rename_i hfrac
    have hlt : (⌊q⌋ : ℚ) < q := by
      have h0 : (0 : ℚ) < 1 / 2 := by norm_num
      have := Int.floor_le q
      nlinarith [hfrac]
    have hq : (⌊q⌋ : ℚ) < (⌈q⌉ : ℚ) := lt_of_lt_of_le hlt (Int.le_ceil q)
    have : ⌊q⌋ + 1 ≤ ⌈q⌉ := by
      rw [Int.add_one_le_iff]
      exact_mod_cast hq
    split
    · linarith [this]
    · exact this
  · rw [round_eq, Int.floor_le_iff]
    have := Int.le_ceil q
    linarith

theorem pyRoundInt_nonneg {q : ℚ} (h : 0 ≤ q) : 0 ≤ pyRoundInt q := by
  have := floor_le_pyRoundInt q
  have h0 : (0 : ℤ) ≤ ⌊q⌋ := Int.floor_nonneg.2 h
  omega

theorem pyRoundInt_le {q : ℚ} {n : ℤ} (h : q ≤ (n : ℚ)) : pyRoundInt q ≤ n := by
  have := pyRoundInt_le_ceil q
  have hc : ⌈q⌉ ≤ n := Int.ceil_le.2 h
  omega

theorem pyRound2_nonneg {q : ℚ} (h : 0 ≤ q) : 0 ≤ pyRound2 q := by
  unfold pyRound2
  have : (0 : ℤ) ≤ pyRoundInt (q * 100) := pyRoundInt_nonneg (by positivity)
  positivity

theorem pyRound2_le_100 {q : ℚ} (h : q ≤ 100) : pyRound2 q ≤ 100 := by
  unfold pyRound2
  have h1 : pyRoundInt (q * 100) ≤ (10000 : ℤ) :=
    pyRoundInt_le (by push_cast; linarith)
  have h2 : (pyRoundInt (q * 100) : ℚ) ≤ 10000 := by exact_mod_cast h1
  linarith

/-- `round(100.0, 2) = 100.0`. -/
theorem pyRound2_hundred : pyRound2 100 = 100 := by
  have : ((100 : ℚ) * 100) = ((10000 : ℤ) : ℚ) := by norm_num
  rw [pyRound2, this]
  rw [pyRoundInt]
  norm_num

/-- The `int(min(100, max(0, score)))` clamp of `analyze` always lands in
`[0, 100]`, whatever the incoming score. -/
theorem clamp_floor_bounds (s : ℚ) :
    0 ≤ ⌊min 100 (max 0 s)⌋ ∧ ⌊min 100 (max 0 s)⌋ ≤ 100 := by
  constructor
  · rw [Int.le_floor]
    push_cast
    exact le_min (by norm_num) (le_max_left 0 s)
  · have h1 : (⌊min 100 (max 0 s)⌋ : ℚ) ≤ min 100 (max 0 s) := Int.floor_le _
    have h2 : min (100 : ℚ) (max 0 s) ≤ 100 := min_le_left _ _
    exact_mod_cast h1.trans h2

/-- A list average of values in `[0, 1]` stays in `[0, 1]`. -/
theorem list_avg_mem_Icc {l : List ℚ} (h : ∀ x ∈ l, 0 ≤ x ∧ x ≤ 1) :
    0 ≤ (if l = [] then 0 else l.sum / (l.length : ℚ)) ∧
      (if l = [] then 0 else l.sum / (l.length : ℚ)) ≤ 1 := by
  split
  · norm_num
  · rename_i hne
    have hlen : 0 < (l.length : ℚ) := by
      have : l ≠ [] := hne
      have : 0 < l.length := List.length_pos.2 this
      exact_mod_cast this
    constructor
    · apply div_nonneg _ hlen.le
      exact List.sum_nonneg (fun x hx => (h x hx).1)
    · rw [div_le_one hlen]
      calc l.sum ≤ l.length • (1 : ℚ) :=
            List.sum_le_card_nsmul l 1 (fun x hx => (h x hx).2)
        _ = (l.length : ℚ) := by simp

/-- When the TF-IDF library call succeeds it returns a cosine of nonnegative
vectors (hypothesis `htf`), and the `except` branch yields `0`, so the
similarity always lies in `[0, 1]`. -/
theorem calculate_tfidf_similarity_mem_Icc (env : Env)
    (htf : ∀ a b s, env.tfidfRaw a b = Except.ok s → 0 ≤ s ∧ s ≤ 1)
    (a b : String) :
    0 ≤ calculate_tfidf_similarity env a b ∧
      calculate_tfidf_similarity env a b ≤ 1 := by
  unfold calculate_tfidf_similarity
  cases h : env.tfidfRaw a b with
  | ok s => exact htf a b s h
  | error e => norm_num

theorem calculate_semantic_similarity_le_one (env : Env)
    (htf : ∀ a b s, env.tfidfRaw a b = Except.ok s → 0 ≤ s ∧ s ≤ 1)
    (hsem : ∀ a b s, env.semanticRaw a b = Except.ok s → s ≤ 1)
    (a b : String) : calculate_semantic_similarity env a b ≤ 1 := by
  unfold calculate_semantic_similarity
  split
  · cases h : env.semanticRaw a b with
    | ok s => exact hsem a b s h
    | error e => exact (calculate_tfidf_similarity_mem_Icc env htf a b).2
  · exact (calculate_tfidf_similarity_mem_Icc env htf a b).2

/-- The `semantic_score if semantic_score > 0 else tfidf_score` selection of
`analyze` stays in `[0, 1]`. -/
theorem content_similarity_mem_Icc (env : Env)
    (htf : ∀ a b s, env.tfidfRaw a b = Except.ok s → 0 ≤ s ∧ s ≤ 1)
    (hsem : ∀ a b s, env.semanticRaw a b = Except.ok s → s ≤ 1)
    (a b : String) :
    0 ≤ (if 0 < calculate_semantic_similarity env a b then
          calculate_semantic_similarity env a b
        else calculate_tfidf_similarity env a b) ∧
      (if 0 < calculate_semantic_similarity env a b then
        calculate_semantic_similarity env a b
      else calculate_tfidf_similarity env a b) ≤ 1 := by
  split
  · rename_i hpos
    exact ⟨le_of_lt hpos, calculate_semantic_similarity_le_one env htf hsem a b⟩
  · exact calculate_tfidf_similarity_mem_Icc env htf a b

/-- A Jaccard similarity of finite word sets lies in `[0, 1]`. -/
theorem calculate_context_overlap_mem_Icc (c1 c2 : List String) :
    0 ≤ calculate_context_overlap c1 c2 ∧ calculate_context_overlap c1 c2 ≤ 1 := by
  simp only [calculate_context_overlap]
  split
  · norm_num
  · split
    · rename_i huni
      constructor
      · positivity
      · rw [div_le_one (by exact_mod_cast huni)]
        exact_mod_cast Finset.card_le_card Finset.inter_subset_union
    · norm_num

theorem analyze_keyword_context_scores_mem_Icc
    (r j : String) (kws : List String) :
    ∀ p ∈ (analyze_keyword_context r j kws).context_scores, 0 ≤ p.2 ∧ p.2 ≤ 1 := by
  intro p hp
  simp only [analyze_keyword_context, List.mem_map] at hp
  obtain ⟨kw, _, rfl⟩ := hp
  dsimp only
  split
  · exact calculate_context_overlap_mem_Icc _ _
  · split
    · norm_num
    · norm_num

theorem analyze_keyword_context_avg_mem_Icc
    (r j : String) (kws : List String) :
    0 ≤ (analyze_keyword_context r j kws).average_context_match ∧
      (analyze_keyword_context r j kws).average_context_match ≤ 1 := by
  have hsc := analyze_keyword_context_scores_mem_Icc r j kws
  set cs := (analyze_keyword_context r j kws).context_scores with hcs
  have havg : (analyze_keyword_context r j kws).average_context_match =
      (if (cs.map Prod.snd) = [] then 0
       else (cs.map Prod.snd).sum / (((cs.map Prod.snd).length : ℕ) : ℚ)) := by
    rw [hcs]
    simp only [analyze_keyword_context, List.map_eq_nil_iff, List.length_map]
  rw [havg]
  refine list_avg_mem_Icc ?_
  intro x hx
  obtain ⟨p, hp, rfl⟩ := List.mem_map.1 hx
  exact hsc p hp

/-- The raw (unreported) keyword match rate lies in `[0, 1]`. -/
theorem match_rate_mem_unit (rk jk : List String) :
    0 ≤ (find_keyword_matches rk jk).2.2 ∧ (find_keyword_matches rk jk).2.2 ≤ 1 := by
  unfold find_keyword_matches
  dsimp only
  split
  · norm_num
  · rename_i hne
    have hpos : 0 < (jk.dedup.length : ℚ) := by
      have : 0 < jk.dedup.length := List.length_pos.2 hne
      exact_mod_cast this
    constructor
    · positivity
    · rw [div_le_one hpos]
      exact_mod_cast fkmAllMatched_length_le (List.nodup_dedup rk) (List.nodup_dedup jk)

/-- The reported `total_coverage` percentage of `analyze_skills_depth` lies
in `[0, 100]`. -/
theorem total_coverage_mem_Icc (rsk jsk : List String) :
    0 ≤ (analyze_skills_depth rsk jsk).total_coverage ∧
      (analyze_skills_depth rsk jsk).total_coverage ≤ 100 := by
  unfold analyze_skills_depth
  dsimp only
  set rs := (rsk.map strLower).dedup with hrs
  set js := (jsk.map strLower).dedup with hjs
  have hratio :
      0 ≤ (if 0 < js.length then
            ((sdExact rs js).length + (sdFuzzy rs js).length : ℚ) / (js.length : ℚ)
          else 0) ∧
        (if 0 < js.length then
          ((sdExact rs js).length + (sdFuzzy rs js).length : ℚ) / (js.length : ℚ)
        else 0) ≤ 1 := by
    split
    · rename_i hpos
      have hq : 0 < (js.length : ℚ) := by exact_mod_cast hpos
      constructor
      · positivity
      · rw [div_le_one hq]
        exact_mod_cast sdExact_fuzzy_length_le (hrs ▸ List.nodup_dedup _)
          (hjs ▸ List.nodup_dedup _)
    · norm_num
  constructor
  · exact pyRound2_nonneg (by nlinarith [hratio.1])
  · exact pyRound2_le_100 (by nlinarith [hratio.2])

theorem experience_strength_le_100 (text : String) :
    (analyze_experience_depth text).experience_strength_score ≤ 100 := by
  unfold analyze_experience_depth
  exact min_le_left _ _

theorem trueCount_le_five (f : SectionFlags) : f.trueCount ≤ 5 := by
  unfold SectionFlags.trueCount
  split_ifs <;> norm_num

/-- `listInfix` decides the contiguous-sublist relation. -/
theorem listInfix_iff_infix {n h : List Char} :
    listInfix n h = true ↔ n <:+: h := by
  induction h with
  | nil =>
    simp only [listInfix, List.isEmpty_iff]
    constructor
    · rintro rfl
      exact List.infix_rfl
    · intro hn
      simpa using hn.length_le
  | cons c cs ih =>
    rw [listInfix, Bool.or_eq_true, ih, List.infix_cons_iff]
    constructor
    · rintro (hp | hi)
      · exact Or.inl (List.isPrefixOf_iff_prefix.1 hp)
      · exact Or.inr hi
    · rintro (hp | hi)
      · exact Or.inl (List.isPrefixOf_iff_prefix.2 hp)
      · exact Or.inr hi

/-- Substring containment is preserved by character-wise lowercasing. -/
theorem substrOf_strLower {n h : String} (hn : substrOf n h = true) :
    substrOf (strLower n) (strLower h) = true := by
  rw [substrOf, listInfix_iff_infix] at hn ⊢
  obtain ⟨s, t, hst⟩ := hn
  refine ⟨s.map Char.toLower, t.map Char.toLower, ?_⟩
  have h1 : (strLower h).toList = h.toList.map Char.toLower := rfl
  have h2 : (strLower n).toList = n.toList.map Char.toLower := rfl
  rw [h1, h2, ← hst]
  simp

/-- A concrete environment with no optional resources: keyword and skill
extraction yield nothing, the embedding model is unavailable and both library
similarity calls raise. -/
def trivialEnv : Env :=
  { extractKeywords := fun _ _ => []
    extractSkills := fun _ => []
    modelAvailable := false
    semanticRaw := fun _ _ => Except.error ()
    tfidfRaw := fun _ _ => Except.error () }

/-! ### Claim theorems -/

/-- Claim C5: `analyze_experience_depth` returns `experience_strength_score`
equal to `min(100, total_action_verb_count*5 + metric_count*10 + (20 if any
leadership verb) + (15 if any achievement verb))`, with verb occurrences
counted case-insensitively at word boundaries over the five fixed verb
categories and metric occurrences counted over the six fixed metric
patterns. -/
theorem claim_C5_experience_strength (text : String) :
    (analyze_experience_depth text).experience_strength_score =
      min 100
        ((categoryCount leadershipVerbs (strLower text) +
            categoryCount achievementVerbs (strLower text) +
            categoryCount improvementVerbs (strLower text) +
            categoryCount creationVerbs (strLower text) +
            categoryCount collaborationVerbs (strLower text)) * 5 +
          metric_total text * 10 +
          (if 0 < categoryCount leadershipVerbs (strLower text) then 20 else 0) +
          (if 0 < categoryCount achievementVerbs (strLower text) then 15 else 0)) := by
  simp only [analyze_experience_depth]
  rw [← min_assoc, min_self]

/-- Claim C8: each section flag of `detect_sections` is true exactly when one
of that category's fixed name variants occurs as a substring of the lowercased
resume text; in particular a resume containing the literal substring
"Professional Experience" has the experience flag set, and a resume containing
none of the skills variants has the skills flag unset. -/
theorem claim_C8_detect_sections (resume_text : String) :
    ((detect_sections resume_text).skills = true ↔
      ∃ v ∈ skillsSectionVariants, substrOf v (strLower resume_text) = true) ∧
    ((detect_sections resume_text).experience = true ↔
      ∃ v ∈ experienceSectionVariants, substrOf v (strLower resume_text) = true) ∧
    ((detect_sections resume_text).education = true ↔
      ∃ v ∈ educationSectionVariants, substrOf v (strLower resume_text) = true) ∧
    ((detect_sections resume_text).achievements = true ↔
      ∃ v ∈ achievementsSectionVariants, substrOf v (strLower resume_text) = true) ∧
    ((detect_sections resume_text).projects = true ↔
      ∃ v ∈ projectsSectionVariants, substrOf v (strLower resume_text) = true) ∧
    (substrOf "Professional Experience" resume_text = true →
      (detect_sections resume_text).experience = true) ∧
    ((∀ v ∈ skillsSectionVariants, substrOf v (strLower resume_text) = false) →
      (detect_sections resume_text).skills = false) := by
  refine ⟨by simp [detect_sections, sectionPresent],
    by simp [detect_sections, sectionPresent],
    by simp [detect_sections, sectionPresent],
    by simp [detect_sections, sectionPresent],
    by simp [detect_sections, sectionPresent], ?_, ?_⟩
  · intro hpe
    have h1 : substrOf (strLower "Professional Experience")
        (strLower resume_text) = true := substrOf_strLower hpe
    have h2 : strLower "Professional Experience" = "professional experience" := by
      decide
    rw [h2] at h1
    simp only [detect_sections, sectionPresent, List.any_eq_true]
    exact ⟨"professional experience", by simp [experienceSectionVariants], h1⟩
  · intro hnone
    simp only [detect_sections, sectionPresent]
    rw [List.any_eq_false]
    intro v hv
    simp [hnone v hv]

/-- Witness for C8 at a resume containing the literal substring
"Professional Experience". -/
theorem claim_C8_witness :
    (detect_sections "My Professional Experience at ACME").experience = true :=
  (claim_C8_detect_sections "My Professional Experience at ACME").2.2.2.2.2.1
    (by decide)

/-- Claim C9: `ResumeAnalyzer.analyze_resume` raises a `ValueError` and
produces no result whenever the resume text is empty or its stripped length is
below 50, or the job description is empty or its stripped length is below 20;
the returned error does not depend on the engine, so the scoring engine is
never invoked. -/
theorem claim_C9_input_validation (resume_text job_description : String)
    (h : resume_text = "" ∨ resume_text.trim.length < 50 ∨
      job_description = "" ∨ job_description.trim.length < 20) :
    ∃ msg, ∀ engine,
      analyze_resume engine resume_text job_description = Except.error msg := by
  by_cases hr : resume_text = "" ∨ resume_text.trim.length < 50
  · exact ⟨"Resume text is too short or empty", fun engine => by
      simp only [analyze_resume]
      rw [if_pos hr]⟩
  · have hj : job_description = "" ∨ job_description.trim.length < 20 := by
      tauto
    exact ⟨"Job description is too short or empty", fun engine => by
      simp only [analyze_resume]
      rw [if_neg hr, if_pos hj]⟩

/-- Witness for C9 at the concrete input of an empty resume. -/
theorem claim_C9_witness :
    (analyze_resume (analyze trivialEnv) "" "any job description").isOk = false := by
  obtain ⟨msg, hmsg⟩ :=
    claim_C9_input_validation "" "any job description" (Or.inl rfl)
  rw [hmsg (analyze trivialEnv)]
  rfl

/-- Claim C4: the engine's content-similarity signal is the semantic score
whenever that is strictly positive and the TF-IDF score otherwise;
`calculate_tfidf_similarity` maps any internal failure to `0.0` instead of
raising, and `calculate_semantic_similarity` falls back to TF-IDF on failure
or unavailability of the embedding model — both estimators are total. -/
theorem claim_C4_similarity_policy (env : Env)
    (resume_text job_description : String) :
    ((analyze env resume_text job_description).normalized_scores.content_similarity =
      (if 0 < calculate_semantic_similarity env (normalize_text resume_text)
            (normalize_text job_description) then
        calculate_semantic_similarity env (normalize_text resume_text)
          (normalize_text job_description)
      else
        calculate_tfidf_similarity env (normalize_text resume_text)
          (normalize_text job_description))) ∧
    (∀ a b e, env.tfidfRaw a b = Except.error e →
      calculate_tfidf_similarity env a b = 0) ∧
    (∀ a b e, env.semanticRaw a b = Except.error e →
      calculate_semantic_similarity env a b = calculate_tfidf_similarity env a b) ∧
    (env.modelAvailable = false →
      ∀ a b, calculate_semantic_similarity env a b = calculate_tfidf_similarity env a b) := by
  refine ⟨?_, ?_, ?_, ?_⟩
  · simp only [analyze]
  · intro a b e he
    unfold calculate_tfidf_similarity
    rw [he]
  · intro a b e he
    unfold calculate_semantic_similarity
    split
    · rw [he]
    · rfl
  · intro hm a b
    unfold calculate_semantic_similarity
    rw [hm]
    simp

/-- Witness for C4: with both library calls raising and the model
unavailable, both estimators return without an exception. -/
theorem claim_C4_witness :
    calculate_tfidf_similarity trivialEnv "a" "b" = 0 ∧
      calculate_semantic_similarity trivialEnv "a" "b" =
        calculate_tfidf_similarity trivialEnv "a" "b" := by
  have h := claim_C4_similarity_policy trivialEnv "a" "b"
  exact ⟨h.2.1 "a" "b" () rfl, h.2.2.1 "a" "b" () rfl⟩

/-- Claim C2: `analyze` computes the pre-adjustment base score as 100 times
the weighted sum of the six normalized signals (weights 0.25, 0.25, 0.20,
0.15, 0.10, 0.05), then adds the flat deltas `+3`/`+2` for metric count,
`+2` for action verbs, `−10` for a short raw resume, `−5` each for a missing
experience or skills section, then clamps to `[0, 100]` and truncates to an
integer. -/
theorem claim_C2_aggregation (env : Env) (resume_text job_description : String) :
    (analyze env resume_text job_description).ats_score =
      ⌊min 100 (max 0 (
        100 * (0.25 *
            (find_keyword_matches
              (env.extractKeywords (normalize_text resume_text) 100)
              (env.extractKeywords (normalize_text job_description) 100)).2.2
          + 0.25 *
            (if 0 < calculate_semantic_similarity env (normalize_text resume_text)
                  (normalize_text job_description) then
              calculate_semantic_similarity env (normalize_text resume_text)
                (normalize_text job_description)
            else
              calculate_tfidf_similarity env (normalize_text resume_text)
                (normalize_text job_description))
          + 0.20 *
            ((analyze_skills_depth (env.extractSkills resume_text)
              (env.extractSkills job_description)).total_coverage / 100)
          + 0.15 *
            (((analyze_experience_depth resume_text).experience_strength_score : ℚ) / 100)
          + 0.10 *
            (analyze_keyword_context resume_text job_description
              (env.extractKeywords (normalize_text job_description) 100)).average_context_match
          + 0.05 * (((detect_sections resume_text).trueCount : ℚ) / 5))
        + (if 5 ≤ (analyze_experience_depth resume_text).metric_count then 3
           else if 3 ≤ (analyze_experience_depth resume_text).metric_count then 2
           else 0)
        + (if 15 ≤ (analyze_experience_depth resume_text).action_verb_count then 2
           else 0)
        - (if resume_text.length < 500 then 10 else 0)
        - (if (detect_sections resume_text).experience then 0 else 5)
        - (if (detect_sections resume_text).skills then 0 else 5)))⌋ := by
  simp only [analyze, weighted_base]
  congr 2
  ring_nf

/-- Claim C10: the matched and missing lists of `find_keyword_matches`
partition the distinct job keyword set — both are duplicate-free sublists of
it, they are disjoint, they jointly cover it — and the match rate equals the
matched-list length divided by the number of distinct job keywords and lies
in `[0, 1]`. -/
theorem claim_C10_partition (resume_keywords job_keywords : List String) :
    ((find_keyword_matches resume_keywords job_keywords).1 ⊆ job_keywords.dedup) ∧
    ((find_keyword_matches resume_keywords job_keywords).2.1 ⊆ job_keywords.dedup) ∧
    (find_keyword_matches resume_keywords job_keywords).1.Nodup ∧
    (find_keyword_matches resume_keywords job_keywords).2.1.Nodup ∧
    (∀ k ∈ (find_keyword_matches resume_keywords job_keywords).1,
      k ∉ (find_keyword_matches resume_keywords job_keywords).2.1) ∧
    (∀ k ∈ job_keywords.dedup,
      k ∈ (find_keyword_matches resume_keywords job_keywords).1 ∨
        k ∈ (find_keyword_matches resume_keywords job_keywords).2.1) ∧
    ((find_keyword_matches resume_keywords job_keywords).2.2 =
      ((find_keyword_matches resume_keywords job_keywords).1.length : ℚ) /
        (job_keywords.dedup.length : ℚ)) ∧
    0 ≤ (find_keyword_matches resume_keywords job_keywords).2.2 ∧
    (find_keyword_matches resume_keywords job_keywords).2.2 ≤ 1 := by
  have hrate := match_rate_mem_unit resume_keywords job_keywords
  have hproj1 : (find_keyword_matches resume_keywords job_keywords).1 =
      fkmAllMatched resume_keywords.dedup job_keywords.dedup := rfl
  have hproj2 : (find_keyword_matches resume_keywords job_keywords).2.1 =
      job_keywords.dedup.filter (fun kw =>
        decide (kw ∉ fkmAllMatched resume_keywords.dedup job_keywords.dedup)) := rfl
  have hproj3 : (find_keyword_matches resume_keywords job_keywords).2.2 =
      (if job_keywords.dedup = [] then 0
       else ((fkmAllMatched resume_keywords.dedup job_keywords.dedup).length : ℚ) /
         (job_keywords.dedup.length : ℚ)) := rfl
  refine ⟨hproj1 ▸ fkmAllMatched_subset,
    fun k hk => (List.mem_filter.1 (hproj2 ▸ hk)).1,
    hproj1 ▸ fkmAllMatched_nodup (List.nodup_dedup _) (List.nodup_dedup _),
    hproj2 ▸ (List.nodup_dedup _).filter _, ?_, ?_, ?_, hrate.1, hrate.2⟩
  · intro k hk hk'
    rw [hproj2] at hk'
    have := (List.mem_filter.1 hk').2
    simp only [decide_eq_true_eq] at this
    exact this (hproj1 ▸ hk)
  · intro k hk
    rw [hproj1, hproj2]
    by_cases hmem : k ∈ fkmAllMatched resume_keywords.dedup job_keywords.dedup
    · exact Or.inl hmem
    · exact Or.inr (List.mem_filter.2 ⟨hk, by simpa using hmem⟩)
  · rw [hproj1, hproj3]
    split
    · rename_i hnil
      rw [hnil]
      simp [fkmAllMatched, fkmMatched, fkmFuzzy]
    · rfl

/-- Witness for C10 at a concrete keyword pair. -/
theorem claim_C10_witness :
    ((find_keyword_matches ["python"] ["python", "java"]).2.2 =
      ((find_keyword_matches ["python"] ["python", "java"]).1.length : ℚ) /
        ((["python", "java"] : List String).dedup.length : ℚ)) ∧
    0 ≤ (find_keyword_matches ["python"] ["python", "java"]).2.2 := by
  have h := claim_C10_partition ["python"] ["python", "java"]
  exact ⟨h.2.2.2.2.2.2.1, h.2.2.2.2.2.2.2.1⟩

/-- Claim C1: whenever the external similarity calls return genuine cosines
(TF-IDF cosine of nonnegative vectors in `[0, 1]`; embedding cosine at most
`1`), the returned `ats_score` is an integer in `[0, 100]` and each of the six
normalized signals lies in `[0, 1]` before weighting. -/
theorem claim_C1_bounds (env : Env)
    (htf : ∀ a b s, env.tfidfRaw a b = Except.ok s → 0 ≤ s ∧ s ≤ 1)
    (hsem : ∀ a b s, env.semanticRaw a b = Except.ok s → s ≤ 1)
    (resume_text job_description : String) :
    (0 ≤ (analyze env resume_text job_description).ats_score ∧
      (analyze env resume_text job_description).ats_score ≤ 100) ∧
    (0 ≤ (analyze env resume_text job_description).normalized_scores.keyword_match ∧
      (analyze env resume_text job_description).normalized_scores.keyword_match ≤ 1) ∧
    (0 ≤ (analyze env resume_text job_description).normalized_scores.content_similarity ∧
      (analyze env resume_text job_description).normalized_scores.content_similarity ≤ 1) ∧
    (0 ≤ (analyze env resume_text job_description).normalized_scores.skills_coverage ∧
      (analyze env resume_text job_description).normalized_scores.skills_coverage ≤ 1) ∧
    (0 ≤ (analyze env resume_text job_description).normalized_scores.experience_quality ∧
      (analyze env resume_text job_description).normalized_scores.experience_quality ≤ 1) ∧
    (0 ≤ (analyze env resume_text job_description).normalized_scores.context_alignment ∧
      (analyze env resume_text job_description).normalized_scores.context_alignment ≤ 1) ∧
    (0 ≤ (analyze env resume_text job_description).normalized_scores.section_structure ∧
      (analyze env resume_text job_description).normalized_scores.section_structure ≤ 1) := by
  simp only [analyze]
  refine ⟨clamp_floor_bounds _, match_rate_mem_unit _ _,
    content_similarity_mem_Icc env htf hsem _ _, ?_, ?_, ?_, ?_⟩
  · have h := total_coverage_mem_Icc (env.extractSkills resume_text)
      (env.extractSkills job_description)
    constructor
    · linarith [h.1]
    · linarith [h.2]
  · constructor
    · positivity
    · have h := experience_strength_le_100 resume_text
      have h' : ((analyze_experience_depth resume_text).experience_strength_score : ℚ) ≤ 100 := by
        exact_mod_cast h
      linarith
  · exact analyze_keyword_context_avg_mem_Icc _ _ _
  · constructor
    · positivity
    · have h := trueCount_le_five (detect_sections resume_text)
      have h' : ((detect_sections resume_text).trueCount : ℚ) ≤ 5 := by
        exact_mod_cast h
      linarith

/-- A concrete environment whose external similarity calls return fixed
in-range cosines. -/
def boundedEnv : Env :=
  { extractKeywords := fun _ _ => ["python"]
    extractSkills := fun _ => ["python"]
    modelAvailable := true
    semanticRaw := fun _ _ => Except.ok (3 / 4)
    tfidfRaw := fun _ _ => Except.ok (1 / 2) }

/-- Witness for C1 at a concrete environment and input pair. -/
theorem claim_C1_witness :
    0 ≤ (analyze boundedEnv "resume text" "job text").ats_score ∧
      (analyze boundedEnv "resume text" "job text").ats_score ≤ 100 :=
  (claim_C1_bounds boundedEnv
    (by
      intro a b s h
      simp only [boundedEnv, Except.ok.injEq] at h
      subst h
      norm_num)
    (by
      intro a b s h
      simp only [boundedEnv, Except.ok.injEq] at h
      subst h
      norm_num)
    "resume text" "job text").1

/-- The double `min(100, ...)` of `analyze_experience_depth` collapses: the
strength score is the single clamped formula over the returned counts. -/
theorem experience_strength_eq (text : String) :
    (analyze_experience_depth text).experience_strength_score =
      min 100 ((analyze_experience_depth text).action_verb_count * 5 +
        (analyze_experience_depth text).metric_count * 10 +
        (if 0 < (analyze_experience_depth text).leadership_indicators then 20 else 0) +
        (if 0 < (analyze_experience_depth text).achievement_indicators then 15 else 0)) := by
  simp only [analyze_experience_depth]
  rw [← min_assoc, min_self]

/-- Claim C6: the final score of `analyze` factors through
`score_given_metrics`, and `score_given_metrics` is monotone in the
quantifiable-metric count with every other input held fixed — so, holding all
other signals equal, strictly increasing the metric count never decreases
`ats_score`. -/
theorem claim_C6_metric_monotonicity :
    (∀ (env : Env) (resume_text job_description : String),
      (analyze env resume_text job_description).ats_score =
        score_given_metrics
          (find_keyword_matches
            (env.extractKeywords (normalize_text resume_text) 100)
            (env.extractKeywords (normalize_text job_description) 100)).2.2
          (if 0 < calculate_semantic_similarity env (normalize_text resume_text)
                (normalize_text job_description) then
            calculate_semantic_similarity env (normalize_text resume_text)
              (normalize_text job_description)
          else
            calculate_tfidf_similarity env (normalize_text resume_text)
              (normalize_text job_description))
          ((analyze_skills_depth (env.extractSkills resume_text)
            (env.extractSkills job_description)).total_coverage / 100)
          (analyze_keyword_context resume_text job_description
            (env.extractKeywords (normalize_text job_description) 100)).average_context_match
          (((detect_sections resume_text).trueCount : ℚ) / 5)
          (analyze_experience_depth resume_text).action_verb_count
          (analyze_experience_depth resume_text).leadership_indicators
          (analyze_experience_depth resume_text).achievement_indicators
          resume_text.length
          (detect_sections resume_text).experience
          (detect_sections resume_text).skills
          (analyze_experience_depth resume_text).metric_count) ∧
    (∀ (kw cs sc ctx sect : ℚ) (verbs lead ach resume_len : ℕ)
        (has_experience has_skills : Bool) (m m' : ℕ), m < m' →
      score_given_metrics kw cs sc ctx sect verbs lead ach resume_len
          has_experience has_skills m ≤
        score_given_metrics kw cs sc ctx sect verbs lead ach resume_len
          has_experience has_skills m') := by
  constructor
  · intro env resume_text job_description
    simp only [analyze, score_given_metrics]
    rw [experience_strength_eq]
  · intro kw cs sc ctx sect verbs lead ach resume_len hexp hskills m m' hm
    simp only [score_given_metrics, weighted_base]
    apply Int.floor_le_floor
    apply min_le_min (le_refl _)
    apply max_le_max (le_refl _)
    have hstrength : ((min 100 (verbs * 5 + m * 10 + (if 0 < lead then 20 else 0) +
          (if 0 < ach then 15 else 0)) : ℕ) : ℚ) ≤
        ((min 100 (verbs * 5 + m' * 10 + (if 0 < lead then 20 else 0) +
          (if 0 < ach then 15 else 0)) : ℕ) : ℚ) := by
      have : (min 100 (verbs * 5 + m * 10 + (if 0 < lead then 20 else 0) +
          (if 0 < ach then 15 else 0)) : ℕ) ≤
          min 100 (verbs * 5 + m' * 10 + (if 0 < lead then 20 else 0) +
            (if 0 < ach then 15 else 0)) := by
        apply min_le_min (le_refl _)
        omega
      exact_mod_cast this
    have hbonus : ((if 5 ≤ m then 3 else if 3 ≤ m then 2 else 0) : ℚ) ≤
        ((if 5 ≤ m' then 3 else if 3 ≤ m' then 2 else 0) : ℚ) := by
      split_ifs <;> first | (exfalso; omega) | norm_num
    linarith

/-- Witness for C6's monotonicity at concrete inputs. -/
theorem claim_C6_witness :
    score_given_metrics 0 0 0 0 0 0 0 0 600 true true 0 ≤
      score_given_metrics 0 0 0 0 0 0 0 0 600 true true 3 :=
  claim_C6_metric_monotonicity.2 0 0 0 0 0 0 0 0 600 true true 0 3
    (by norm_num)

/-- A job keyword is matched exactly when it is in the resume keyword set or
stands in a substring relation (either direction) with some resume keyword. -/
theorem mem_fkmAllMatched_iff {rs js : List String} {k : String} :
    k ∈ fkmAllMatched rs js ↔
      k ∈ js ∧ (k ∈ rs ∨ ∃ r ∈ rs, substrOf k r = true ∨ substrOf r k = true) := by
  rw [fkmAllMatched, List.mem_append, mem_fkmMatched, mem_fkmFuzzy]
  constructor
  · rintro (⟨hr, hj⟩ | ⟨hj, _, r, hrmem, hsub⟩)
    · exact ⟨hj, Or.inl hr⟩
    · exact ⟨hj, Or.inr ⟨r, hrmem, hsub⟩⟩
  · rintro ⟨hj, hr | ⟨r, hrmem, hsub⟩⟩
    · exact Or.inl ⟨hr, hj⟩
    · by_cases hmk : k ∈ fkmMatched rs js
      · exact Or.inl (mem_fkmMatched.1 hmk)
      · exact Or.inr ⟨hj, hmk, r, hrmem, hsub⟩

/-- Claim C3, amended: a job keyword is matched when it is exactly in the
resume keyword set or one of the two strings is a substring of the other; the
match rate is the matched count over the number of distinct job keywords and
is `0.0` for an empty job keyword set; the reported `keyword_match_rate`
always lies in `[0, 100]` and equals `100` whenever the job keyword set is
nonempty and the resume keyword set is a superset of it. -/
theorem claim_C3_keyword_match (env : Env)
    (resume_text job_description : String) :
    (∀ k,
      k ∈ (find_keyword_matches
          (env.extractKeywords (normalize_text resume_text) 100)
          (env.extractKeywords (normalize_text job_description) 100)).1 ↔
        k ∈ (env.extractKeywords (normalize_text job_description) 100).dedup ∧
          (k ∈ (env.extractKeywords (normalize_text resume_text) 100).dedup ∨
            ∃ r ∈ (env.extractKeywords (normalize_text resume_text) 100).dedup,
              substrOf k r = true ∨ substrOf r k = true)) ∧
    ((find_keyword_matches
        (env.extractKeywords (normalize_text resume_text) 100)
        (env.extractKeywords (normalize_text job_description) 100)).2.2 =
      if (env.extractKeywords (normalize_text job_description) 100).dedup = []
      then 0
      else
        ((find_keyword_matches
            (env.extractKeywords (normalize_text resume_text) 100)
            (env.extractKeywords (normalize_text job_description) 100)).1.length : ℚ) /
          ((env.extractKeywords (normalize_text job_description) 100).dedup.length : ℚ)) ∧
    (0 ≤ (analyze env resume_text job_description).keyword_match_rate ∧
      (analyze env resume_text job_description).keyword_match_rate ≤ 100) ∧
    ((env.extractKeywords (normalize_text job_description) 100).dedup ≠ [] →
      (env.extractKeywords (normalize_text job_description) 100).dedup ⊆
        (env.extractKeywords (normalize_text resume_text) 100).dedup →
      (analyze env resume_text job_description).keyword_match_rate = 100) := by
  have hrep : (analyze env resume_text job_description).keyword_match_rate =
      pyRound2 ((find_keyword_matches
        (env.extractKeywords (normalize_text resume_text) 100)
        (env.extractKeywords (normalize_text job_description) 100)).2.2 * 100) := rfl
  have hrate := match_rate_mem_unit
    (env.extractKeywords (normalize_text resume_text) 100)
    (env.extractKeywords (normalize_text job_description) 100)
  refine ⟨fun k => mem_fkmAllMatched_iff, rfl, ?_, ?_⟩
  · rw [hrep]
    constructor
    · exact pyRound2_nonneg (by nlinarith [hrate.1])
    · exact pyRound2_le_100 (by nlinarith [hrate.2])
  · intro hne hsup
    rw [hrep]
    have hlen := fkmAllMatched_length_eq_of_superset
      (List.nodup_dedup (env.extractKeywords (normalize_text resume_text) 100))
      (List.nodup_dedup (env.extractKeywords (normalize_text job_description) 100))
      hsup
    have hone : (find_keyword_matches
        (env.extractKeywords (normalize_text resume_text) 100)
        (env.extractKeywords (normalize_text job_description) 100)).2.2 = 1 := by
      show (if (env.extractKeywords (normalize_text job_description) 100).dedup = []
        then (0 : ℚ)
        else ((fkmAllMatched
            (env.extractKeywords (normalize_text resume_text) 100).dedup
            (env.extractKeywords (normalize_text job_description) 100).dedup).length : ℚ) /
          ((env.extractKeywords (normalize_text job_description) 100).dedup.length : ℚ)) = 1
      rw [if_neg hne, hlen]
      have hpos : 0 < ((env.extractKeywords
          (normalize_text job_description) 100).dedup.length : ℚ) := by
        have : 0 < (env.extractKeywords
            (normalize_text job_description) 100).dedup.length :=
          List.length_pos.2 hne
        exact_mod_cast this
      field_simp
    rw [hone, one_mul, pyRound2_hundred]

/-- Counterexample to C3 as stated: with no extractable job keywords the
resume keyword set is (vacuously) a superset of the job keyword set, yet the
reported `keyword_match_rate` is `0`, not `100`. -/
theorem claim_C3_counterexample :
    trivialEnv.extractKeywords (normalize_text "b") 100 = [] ∧
    (trivialEnv.extractKeywords (normalize_text "b") 100).dedup ⊆
      (trivialEnv.extractKeywords (normalize_text "a") 100).dedup ∧
    (analyze trivialEnv "a" "b").keyword_match_rate = 0 ∧
    (0 : ℚ) ≠ 100 := by
  refine ⟨rfl, fun k hk => by simp [trivialEnv] at hk, ?_, by norm_num⟩
  have h0 : (analyze trivialEnv "a" "b").keyword_match_rate =
      pyRound2 (0 * 100) := rfl
  rw [h0]
  norm_num [pyRound2, pyRoundInt]

/-- Witness for the amended C3 at a nonempty job keyword set contained in the
resume keyword set. -/
theorem claim_C3_witness :
    (analyze boundedEnv "resume text" "job text").keyword_match_rate = 100 :=
  (claim_C3_keyword_match boundedEnv "resume text" "job text").2.2.2
    (by simp [boundedEnv]) (fun k hk => hk)

/-- With both context lists nonempty (and division by zero being zero in
`ℚ`), `_calculate_context_overlap` is exactly the sizes ratio of the word-set
intersection and union. -/
theorem calculate_context_overlap_eq (c1 c2 : List String)
    (h1 : c1 ≠ []) (h2 : c2 ≠ []) :
    calculate_context_overlap c1 c2 =
      (((splitWs (" ".intercalate c1)).toFinset ∩
          (splitWs (" ".intercalate c2)).toFinset).card : ℚ) /
        (((splitWs (" ".intercalate c1)).toFinset ∪
          (splitWs (" ".intercalate c2)).toFinset).card : ℚ) := by
  simp only [calculate_context_overlap]
  rw [if_neg (by tauto)]
  split
  · rfl
  · rename_i h
    have h0 : ((splitWs (" ".intercalate c1)).toFinset ∪
        (splitWs (" ".intercalate c2)).toFinset).card = 0 := by omega
    rw [h0]
    simp

/-- `_extract_keyword_contexts` produces a window exactly when the keyword
occurs as a substring of some whitespace-split word of the text. -/
theorem extract_keyword_contexts_ne_nil_iff (text keyword : String) :
    extract_keyword_contexts text keyword ≠ [] ↔
      (splitWs text).any (fun w => substrOf keyword w) = true := by
  simp only [extract_keyword_contexts]
  rw [Ne, List.filterMap_eq_nil_iff, List.any_eq_true]
  constructor
  · intro hnot
    push_neg at hnot
    obtain ⟨p, hp, hne⟩ := hnot
    by_cases hc : substrOf keyword p.2 = true
    · refine ⟨p.2, ?_, hc⟩
      rw [← List.enum_map_snd (splitWs text)]
      exact List.mem_map.2 ⟨p, hp, rfl⟩
    · exact absurd (by simp [hc]) hne
  · rintro ⟨w, hw, hc⟩ hall
    rw [← List.enum_map_snd (splitWs text)] at hw
    obtain ⟨p, hp, rfl⟩ := List.mem_map.1 hw
    have := hall p hp
    rw [if_pos hc] at this
    exact Option.some_ne_none _ this

/-- Claim C7: `analyze_keyword_context` scores only the (distinct) first 20
keywords; a keyword occurring — as a substring of some whitespace-split
word — in both documents scores the Jaccard similarity of the word sets of
its concatenated ±5-word windows, one occurring only in the resume scores
exactly `0.5`, and one absent from the resume scores `0.0`; the aggregate is
the arithmetic mean of the per-keyword scores (`0.0` if none), and the
well-contextualized count is the number of scores strictly above `0.6`. -/
theorem claim_C7_keyword_context (resume_text job_description : String)
    (keywords : List String) :
    ((analyze_keyword_context resume_text job_description keywords).context_scores =
      ((keywords.take 20).dedup).map (fun keyword =>
        (keyword,
          if (splitWs (strLower resume_text)).any (fun w => substrOf keyword w) then
            if (splitWs (strLower job_description)).any (fun w => substrOf keyword w) then
              (((splitWs (" ".intercalate
                    (extract_keyword_contexts (strLower resume_text) keyword))).toFinset ∩
                 (splitWs (" ".intercalate
                    (extract_keyword_contexts (strLower job_description) keyword))).toFinset).card : ℚ) /
                (((splitWs (" ".intercalate
                    (extract_keyword_contexts (strLower resume_text) keyword))).toFinset ∪
                  (splitWs (" ".intercalate
                    (extract_keyword_contexts (strLower job_description) keyword))).toFinset).card : ℚ)
            else (1 / 2 : ℚ)
          else 0))) ∧
    ((analyze_keyword_context resume_text job_description keywords).average_context_match =
      if (analyze_keyword_context resume_text job_description keywords).context_scores = []
      then 0
      else ((analyze_keyword_context resume_text job_description
          keywords).context_scores.map Prod.snd).sum /
        ((analyze_keyword_context resume_text job_description
          keywords).context_scores.length : ℚ)) ∧
    ((analyze_keyword_context resume_text job_description
        keywords).well_contextualized_keywords =
      (((analyze_keyword_context resume_text job_description
          keywords).context_scores.map Prod.snd).filter
        (fun s => decide ((3 / 5 : ℚ) < s))).length) := by
  refine ⟨?_, rfl, rfl⟩
  simp only [analyze_keyword_context]
  apply List.map_congr_left
  intro keyword hkw
  have hr := extract_keyword_contexts_ne_nil_iff (strLower resume_text) keyword
  have hj := extract_keyword_contexts_ne_nil_iff (strLower job_description) keyword
  refine congrArg (fun q => (keyword, q)) ?_
  by_cases hrb : (splitWs (strLower resume_text)).any
      (fun w => substrOf keyword w) = true
  · by_cases hjb : (splitWs (strLower job_description)).any
        (fun w => substrOf keyword w) = true
    · rw [if_pos ⟨hr.2 hrb, hj.2 hjb⟩, if_pos hrb, if_pos hjb]
      exact calculate_context_overlap_eq _ _ (hr.2 hrb) (hj.2 hjb)
    · rw [if_neg (fun hand => hjb (hj.1 hand.2)), if_pos (hr.2 hrb),
        if_pos hrb, if_neg hjb]
  · rw [if_neg (fun hand => hrb (hr.1 hand.1)),
      if_neg (fun hne => hrb (hr.1 hne)), if_neg hrb]

end ATS
